import Mathlib

/-!
Verification development for the realtime audio-to-transcript relay of the
RAGrecording backend (`src/backend/src/routes/transcription.ts`, function
`attachRealtimeRelay` and its helpers `verifyJwt`, `connectAAI`, `closeWith`).

The relay is a per-connection event-driven state machine.  We embed it
shallowly: the mutable per-connection closure state (`StreamState` plus the
`state : StreamState | null` variable, the captured `cfg`, and which event
handlers have been registered) becomes a `Machine` record; every event
handler of the source becomes a pure function `Machine → Machine × List
Effect` where `Effect` records the outbound calls the handler attempts
(WebSocket sends and closes, AssemblyAI connect/send/close, ffmpeg
spawn/write/kill, Supabase persistence calls, ZeroEntropy archival calls).
Event handlers are composed sequentially (run-to-completion per event).

JavaScript `undefined` for identifier fields is modelled by `Option`;
`x ?? d` by `Option.getD`; `try { … } catch {}` around a primitive call by
an exception-flow combinator (`emTry`) in the teardown model, where the
source's try/catch placement matters for the claims.
-/

/-- JS string-or-undefined. -/
abbrev JStr := Option String

/-- The `src` claim of the session JWT: `'phone' | 'omi'`. -/
inductive Source where
  | phone
  | omi
deriving DecidableEq, Repr

/-- The `encoding` field of the config message: `'pcm16' | 'opus'`. -/
inductive Encoding where
  | pcm16
  | opus
deriving DecidableEq, Repr

/-- The `container` field of the config message: `'raw' | 'ogg' | 'webm'`. -/
inductive Container where
  | raw
  | ogg
  | webm
deriving DecidableEq, Repr

/-- JSON values, as produced by a successful `JSON.parse`.  Numbers are
modelled as integers (all numeric fields the relay validates are integral). -/
inductive Json where
  | null
  | bool (b : Bool)
  | num (n : Int)
  | str (s : String)
  | arr (xs : List Json)
  | obj (fields : List (String × Json))

/-- Property lookup `j.k` on a parsed JSON value: `undefined` (`none`) unless
`j` is an object with field `k`. -/
def Json.lookup (j : Json) (k : String) : Option Json :=
  match j with
  | .obj fields => fields.lookup k
  | _ => none

/-- The result of `ConfigSchema.parse`: the zod schema of the first client
message (`ConfigSchema` in the source). -/
structure Config where
  source : Source
  encoding : Encoding
  container : Option Container
  sample_rate : Int
  channels : Int
  frame_ms : Option Int
  language : Option String
  diarize : Option Bool
  punctuate : Option Bool
deriving DecidableEq, Repr

/-- Parse one optional field: absent is fine, present-but-invalid fails. -/
def optField (j : Json) (k : String) (f : Json → Option α) : Option (Option α) :=
  match j.lookup k with
  | none => some none
  | some v => (f v).map some

/-- Models `z.enum(['phone','omi'])`. -/
def parseSource : Json → Option Source
  | .str "phone" => some .phone
  | .str "omi" => some .omi
  | _ => none

/-- Models `z.enum(['pcm16','opus'])`. -/
def parseEncoding : Json → Option Encoding
  | .str "pcm16" => some .pcm16
  | .str "opus" => some .opus
  | _ => none

/-- Models `z.enum(['raw','ogg','webm'])`. -/
def parseContainer : Json → Option Container
  | .str "raw" => some .raw
  | .str "ogg" => some .ogg
  | .str "webm" => some .webm
  | _ => none

/-- Models `z.number().int().positive()`. -/
def parsePosInt : Json → Option Int
  | .num n => if 0 < n then some n else none
  | _ => none

/-- Models `z.string()`. -/
def parseStr : Json → Option String
  | .str s => some s
  | _ => none

/-- Models `z.boolean()`. -/
def parseBool : Json → Option Bool
  | .bool b => some b
  | _ => none

/-- Models `ConfigSchema.parse`, the zod object schema from the source:
`type` must be the literal `'config'`; `source`, `encoding`, `sample_rate`
are required; `container`, `frame_ms`, `language`, `diarize`, `punctuate`
are optional; `channels` defaults to `1`. -/
def parseConfig (j : Json) : Option Config :=
  match j with
  | .obj _ => do
    match j.lookup "type" with
    | some (.str "config") => pure ()
    | _ => none
    let source ← (j.lookup "source").bind parseSource
    let encoding ← (j.lookup "encoding").bind parseEncoding
    let container ← optField j "container" parseContainer
    let sample_rate ← (j.lookup "sample_rate").bind parsePosInt
    let channels ← match j.lookup "channels" with
      | none => some 1
      | some v => parsePosInt v
    let frame_ms ← optField j "frame_ms" parsePosInt
    let language ← optField j "language" parseStr
    let diarize ← optField j "diarize" parseBool
    let punctuate ← optField j "punctuate" parseBool
    pure ⟨source, encoding, container, sample_rate, channels,
          frame_ms, language, diarize, punctuate⟩
  | _ => none

/-- A word entry of an AssemblyAI final event (`ev.words[i]`). -/
structure AaiWord where
  text : JStr
  start : Option Int
  fin : Option Int
  speaker : JStr
deriving DecidableEq, Repr

/-- The word shape the relay forwards:
`{ word: w.text, start_ms: w.start, end_ms: w.end, speaker: w.speaker }`. -/
structure MappedWord where
  word : JStr
  start_ms : Option Int
  end_ms : Option Int
  speaker : JStr
deriving DecidableEq, Repr

/-- The word mapping applied in the FinalTranscript branch. -/
def mapWord (w : AaiWord) : MappedWord :=
  ⟨w.text, w.start, w.fin, w.speaker⟩

/-- A parsed AssemblyAI realtime event as the relay reads it (field accesses
on the `JSON.parse` result).  `words = none` models "not an array"
(the `Array.isArray(ev.words)` test); `speaker_labels_truthy` models
`!!ev.speaker_labels`; `error_truthy` models truthiness of `ev.error`. -/
structure AaiEvent where
  message_type : Option String
  text : Option String
  audio_start : Option Int
  audio_end : Option Int
  words : Option (List AaiWord)
  speaker_labels_truthy : Bool
  error_truthy : Bool
deriving DecidableEq, Repr

/-- Models `ev.text || ''`: a JS string is falsy exactly when empty. -/
def jsTextOrEmpty : Option String → String
  | none => ""
  | some s => if s = "" then "" else s

/-- Render a possibly-undefined string inside a template literal. -/
def jsShow : JStr → String
  | none => "undefined"
  | some s => s

/-- A finalized transcript segment as pushed onto `state.finals`. -/
structure Segment where
  text : String
  start_ms : Int
  end_ms : Int
  words : Option (List MappedWord)
deriving DecidableEq, Repr

/-- The installed `state.pcmForwarder` closure: either the base64 direct
forwarder (pcm16 path) or the ffmpeg stdin writer (opus path). -/
inductive Forwarder where
  | pcm16
  | opus
deriving DecidableEq, Repr

/-- The `StreamState` record of the source.  `aaiWs` / `ffmpeg` model
presence of the vendor socket / transcoder process handles.  The source's
unused `partialSeq` counter is named `interimSeq` here. -/
structure StreamState where
  sessionId : JStr
  userId : JStr
  source : Option Source
  sampleRate : Option Int
  aaiWs : Bool
  ffmpeg : Bool
  configReceived : Bool
  diarizationEnabled : Bool
  closed : Bool
  interimSeq : Nat
  finalSeq : Nat
  pcmForwarder : Option Forwarder
  finals : List Segment
deriving DecidableEq, Repr

/-- Outbound client messages (`sendJson` payloads).  `interim` models the
source's `{type: 'partial', …}` message. -/
inductive OutMsg where
  | interim (text : String) (start_ms end_ms : Int) (diarization_enabled : Bool)
  | finalMsg (text : String) (start_ms end_ms : Int)
      (words : Option (List MappedWord)) (diarization_enabled : Bool)
deriving DecidableEq, Repr

/-- The externally observable calls a handler attempts, in program order. -/
inductive Effect where
  | send (msg : OutMsg)
  | wsClose (code : Int) (reason : String)
  | aaiConnect (sampleRate : Int) (diarize : Bool)
  | aaiSendAudio (bytes : List Nat)
  | aaiSendTerminate
  | aaiClose
  | spawnFfmpeg (args : List String)
  | ffmpegStdinWrite (bytes : List Nat)
  | ffmpegStdinEnd
  | ffmpegKill
  | sbStartSession (user_id : JStr) (source : Option Source) (vendor : String) (sample_rate : Int)
  | sbAddFinalSegment (session_id : JStr) (start_ms end_ms : Int) (text : String)
  | sbEndSession (session_id : JStr)
  | zeCollectionsAdd (collection : String)
  | zeDocumentsAdd (collection : String) (path : String) (text : String)
deriving DecidableEq, Repr

/-- Process environment the relay reads: whether `SupabaseService.isConfigured()`
holds, whether `ZEROENTROPY_API_KEY` is set and starts with `'ze_'`, and the
`Date.now()` value used in the archival path. -/
structure Env where
  supabaseConfigured : Bool
  zeApiKeyValid : Bool
  nowMs : Int
deriving DecidableEq, Repr

/-- The per-connection machine: the `state` closure variable (`none` after
`closeWith` ran, mirroring `state = null`), the `cfg` captured by the
vendor-socket handlers when the config was accepted (also stands for "the
AAI handlers are registered"), and whether the ffmpeg handlers are
registered. -/
structure Machine where
  st : Option StreamState
  cfgCaptured : Option Config
  ffInstalled : Bool
deriving DecidableEq, Repr

/-- Which throw-capable teardown primitives actually throw, for checking the
source's try/catch placement in `closeWith`. -/
structure FailFlags where
  wsCloseThrows : Bool
  aaiCloseThrows : Bool
  collAddThrows : Bool
  docAddThrows : Bool
  endSessionThrows : Bool
deriving DecidableEq, Repr

/-- No teardown primitive throws. -/
def noFail : FailFlags := ⟨false, false, false, false, false⟩

/-- Outcome of an exception-flow computation. -/
inductive Outcome where
  | ok
  | thrown
deriving DecidableEq, Repr

/-- Effects attempted so far plus whether the computation completed or threw. -/
structure EmRes where
  effs : List Effect
  out : Outcome
deriving DecidableEq, Repr

/-- Sequential composition: the second computation runs only if the first
did not throw. -/
def emSeq (a b : EmRes) : EmRes :=
  match a.out with
  | .ok => ⟨a.effs ++ b.effs, b.out⟩
  | .thrown => a

/-- Models `try { a } catch {}`. -/
def emTry (a : EmRes) : EmRes := ⟨a.effs, .ok⟩

/-- One primitive call: the call is attempted (recorded) and then may throw. -/
def emEmit (e : Effect) (throws : Bool) : EmRes :=
  ⟨[e], if throws then .thrown else .ok⟩

/-- A no-op. -/
def emPure : EmRes := ⟨[], .ok⟩

/-- Stable insertion of a segment into a list sorted by `start_ms`
(strictly-smaller goes left, so equal keys keep their original order,
matching the stable `Array.prototype.sort`). -/
def insertSeg (x : Segment) : List Segment → List Segment
  | [] => [x]
  | y :: ys => if x.start_ms < y.start_ms then x :: y :: ys else y :: insertSeg x ys

/-- Models `state.finals.sort((a, b) => a.start_ms - b.start_ms)`: a stable sort by
`start_ms`. -/
def sortFinals : List Segment → List Segment
  | [] => []
  | x :: xs => insertSeg x (sortFinals xs)

/-- Models `finals.sort(…).map(f => f.text).join(' ')`. -/
def fullTranscript (finals : List Segment) : String :=
  String.intercalate " " ((sortFinals finals).map Segment.text)

/-- The ZeroEntropy collection used by the relay. -/
def zeCollection : String := "ai-wearable-transcripts"

/-- The ZeroEntropy document path `mobile/live/$\x7bDate.now()\x7d_$\x7bstate.sessionId\x7d.txt`. -/
def zePath (env : Env) (s : StreamState) : String :=
  "mobile/live/" ++ toString env.nowMs ++ "_" ++ jsShow s.sessionId ++ ".txt"

/-- The `closeWith(code, reason)` teardown of the source, as an
exception-flow computation over the current `state` variable:
`try { ws.close } catch`, then `state?.ffmpeg?.kill('SIGKILL')`, then
`try { state?.aaiWs?.close() } catch`, then the big
`try { ZE archival if finals nonempty; endSession } catch`. -/
def closeWithEM (env : Env) (fl : FailFlags) (code : Int) (reason : String)
    (st : Option StreamState) : EmRes :=
  emSeq (emTry (emEmit (.wsClose code reason) fl.wsCloseThrows))
  (emSeq (match st with
          | some s => if s.ffmpeg then emEmit .ffmpegKill false else emPure
          | none => emPure)
  (emSeq (emTry (match st with
          | some s => if s.aaiWs then emEmit .aaiClose fl.aaiCloseThrows else emPure
          | none => emPure))
  (emTry
    (emSeq (match st with
            | some s =>
              if 0 < s.finals.length then
                if env.zeApiKeyValid then
                  emSeq (emTry (emEmit (.zeCollectionsAdd zeCollection) fl.collAddThrows))
                        (emTry (emEmit (.zeDocumentsAdd zeCollection (zePath env s)
                                         (fullTranscript s.finals)) fl.docAddThrows))
                else emPure
              else emPure
            | none => emPure)
           (match st with
            | some s => emEmit (.sbEndSession s.sessionId) fl.endSessionThrows
            | none => emPure)))))

/-- The teardown `closeWith` as the machine sees it (no primitive throws): runs the
teardown effects and sets `state = null`. -/
def closeWith (env : Env) (code : Int) (reason : String) (m : Machine) :
    Machine × List Effect :=
  ({ m with st := none }, (closeWithEM env noFail code reason m.st).effs)

/-- A client WebSocket message: a binary audio frame, or a text message
carrying its `JSON.parse` result (`none` when parsing throws). -/
inductive ClientMsg where
  | binary (bytes : List Nat)
  | text (j : Option Json)

/-- Models `msg?.type === 'stop'` on the parse result of a post-config text message. -/
def isStopMsg : Option Json → Bool
  | some j =>
    match j.lookup "type" with
    | some (.str "stop") => true
    | _ => false
  | none => false

/-- Decoded-PCM re-slicing: the source's
`for (let i = 0; i < pcm.length; i += 640) slice(i, min(i+640, len))` loop. -/
def chunks640 (l : List Nat) : List (List Nat) :=
  if h : l = [] then []
  else
    l.take 640 :: chunks640 (l.drop 640)
termination_by l.length
decreasing_by
  have hpos : 0 < l.length := List.length_pos.mpr h
  have : (l.drop 640).length = l.length - 640 := List.length_drop 640 l
  omega

/-- The `ws.on('message')` handler. -/
def stepClientMsg (env : Env) (m : Machine) (msg : ClientMsg) : Machine × List Effect :=
  match m.st with
  | none => (m, [])
  | some s =>
    if s.closed then (m, [])
    else if s.configReceived = false then
      match msg with
      | .binary _ => closeWith env 4401 "Expected config" m
      | .text oj =>
        match oj.bind parseConfig with
        | some cfg =>
          let diar := cfg.diarize.getD true
          let s' := { s with configReceived := true,
                             diarizationEnabled := diar,
                             aaiWs := true }
          ({ m with st := some s', cfgCaptured := some cfg },
           [.aaiConnect 16000 diar])
        | none => closeWith env 4401 "Bad config" m
    else
      match msg with
      | .binary b =>
        match s.pcmForwarder with
        | some .pcm16 => (m, [.aaiSendAudio b])
        | some .opus => (m, [.ffmpegStdinWrite b])
        | none => (m, [])
      | .text oj =>
        if isStopMsg oj then
          let e1 := if s.aaiWs then [Effect.aaiSendTerminate] else []
          let r := closeWith env 1000 "normal" m
          (r.1, e1 ++ r.2)
        else (m, [])

/-- The `ws.on('close')` handler: marks the session closed and tears down
the vendor socket and transcoder handles, but runs no persistence. -/
def stepWsClose (m : Machine) : Machine × List Effect :=
  match m.st with
  | none => (m, [])
  | some s =>
    ({ m with st := some { s with closed := true } },
     (if s.aaiWs then [Effect.aaiSendTerminate, Effect.aaiClose] else [])
       ++ (if s.ffmpeg then [Effect.ffmpegStdinEnd, Effect.ffmpegKill] else []))

/-- The ffmpeg arguments built in the opus branch of the `aai.on('open')`
handler.  `cfg.sample_rate || state.sampleRate || 48000` short-circuits at
`cfg.sample_rate`, which zod guarantees positive hence truthy. -/
def ffmpegArgs (cfg : Config) : List String :=
  [ "-loglevel", "quiet",
    "-f", (match cfg.container with
           | some .webm => "webm"
           | some .raw => "opus"
           | _ => "ogg"),
    "-ar", toString cfg.sample_rate,
    "-ac", "1",
    "-i", "pipe:0",
    "-ar", "16000",
    "-ac", "1",
    "-f", "s16le",
    "pipe:1" ]

/-- The `aai.on('open')` handler: fires the best-effort `startSession`
persistence call, then installs the PCM forwarder (pcm16) or spawns the
ffmpeg transcoder and installs the stdin forwarder (opus).  When `state` is
already `null`, the `state!.…` accesses throw: the `startSession` call is
skipped (its throw is swallowed by the IIFE's try/catch), the pcm16
forwarder is not installed, and on the opus path the process is spawned but
its handle and handlers are lost. -/
def stepAaiOpen (env : Env) (m : Machine) : Machine × List Effect :=
  match m.cfgCaptured with
  | none => (m, [])
  | some cfg =>
    let e1 := if env.supabaseConfigured then
                match m.st with
                | some s => [Effect.sbStartSession s.userId s.source "assemblyai" 16000]
                | none => []
              else []
    match cfg.encoding with
    | .pcm16 =>
      match m.st with
      | some s => ({ m with st := some { s with pcmForwarder := some .pcm16 } }, e1)
      | none => (m, e1)
    | .opus =>
      match m.st with
      | some s =>
        ({ m with st := some { s with ffmpeg := true, pcmForwarder := some .opus },
                  ffInstalled := true },
         e1 ++ [Effect.spawnFfmpeg (ffmpegArgs cfg)])
      | none => (m, e1 ++ [Effect.spawnFfmpeg (ffmpegArgs cfg)])

/-- The AAI message-event handler installed by `connectAAI`. -/
def stepAaiEvent (env : Env) (m : Machine) (ev : AaiEvent) : Machine × List Effect :=
  match m.cfgCaptured with
  | none => (m, [])
  | some _ =>
    if ev.message_type = some "PartialTranscript" then
      let start_ms := ev.audio_start.getD 0
      let end_ms := ev.audio_end.getD 0
      (m, [.send (.interim (jsTextOrEmpty ev.text) start_ms end_ms ev.speaker_labels_truthy)])
    else if ev.message_type = some "FinalTranscript" then
      let start_ms := ev.audio_start.getD 0
      let end_ms := ev.audio_end.getD 0
      let words := ev.words.map (fun l => l.map mapWord)
      let txt := jsTextOrEmpty ev.text
      let seg : Segment := ⟨txt, start_ms, end_ms, words⟩
      let m' := { m with st := m.st.map (fun s => { s with finals := s.finals ++ [seg] }) }
      let e2 := if env.supabaseConfigured then
                  match m.st with
                  | some s => [Effect.sbAddFinalSegment s.sessionId start_ms end_ms txt]
                  | none => []
                else []
      (m', .send (.finalMsg txt start_ms end_ms words ev.speaker_labels_truthy) :: e2)
    else if ev.error_truthy then closeWith env 4501 "vendor error" m
    else (m, [])

/-- The AAI socket error handler installed by `connectAAI`. -/
def stepAaiError (env : Env) (m : Machine) : Machine × List Effect :=
  match m.cfgCaptured with
  | none => (m, [])
  | some _ => closeWith env 4501 "vendor error" m

/-- The `ff.stdout.on('data')` handler: re-slices decoded PCM into 640-byte
frames and forwards each to the vendor socket. -/
def stepFfData (m : Machine) (pcm : List Nat) : Machine × List Effect :=
  if m.ffInstalled then (m, (chunks640 pcm).map Effect.aaiSendAudio)
  else (m, [])

/-- The `ff.on('error')` handler. -/
def stepFfError (env : Env) (m : Machine) : Machine × List Effect :=
  if m.ffInstalled then closeWith env 4501 "decoder error" m
  else (m, [])

/-- Models `!state?.closed` as the ffmpeg close handler evaluates it. -/
def ffNotClosed (st : Option StreamState) : Bool :=
  match st with
  | some s => !s.closed
  | none => true

/-- The `ff.on('close')` handler (`code` is `null` when the process was
killed by a signal). -/
def stepFfClose (env : Env) (m : Machine) (code : Option Int) : Machine × List Effect :=
  if m.ffInstalled then
    if ffNotClosed m.st && code != some 0 then closeWith env 4501 "decoder exit" m
    else (m, [])
  else (m, [])

/-- One event of the per-connection event loop. -/
inductive Event where
  | clientMsg (msg : ClientMsg)
  | wsClose
  | aaiOpen
  | aaiEvent (ev : AaiEvent)
  | aaiError
  | ffData (pcm : List Nat)
  | ffError
  | ffClose (code : Option Int)

/-- Dispatch one event to its handler. -/
def step (env : Env) (m : Machine) (ev : Event) : Machine × List Effect :=
  match ev with
  | .clientMsg msg => stepClientMsg env m msg
  | .wsClose => stepWsClose m
  | .aaiOpen => stepAaiOpen env m
  | .aaiEvent e => stepAaiEvent env m e
  | .aaiError => stepAaiError env m
  | .ffData pcm => stepFfData m pcm
  | .ffError => stepFfError env m
  | .ffClose code => stepFfClose env m code

/-- Run a sequence of events, concatenating the attempted effects. -/
def run (env : Env) (m : Machine) : List Event → Machine × List Effect
  | [] => (m, [])
  | ev :: evs =>
    let r1 := step env m ev
    let r2 := run env r1.1 evs
    (r2.1, r1.2 ++ r2.2)

/-- The fields `verifyJwt` extracts from the verified JWT payload, each
possibly `undefined` since the source performs no shape validation. -/
structure JwtPayload where
  user_id : JStr
  session_id : JStr
  src : Option Source
  sr : Option Int
deriving DecidableEq, Repr

/-- The source's `verifyJwt`: throws (`none`) when `JWT_SECRET` is unset or
`jwt.verify` rejects the token; otherwise returns the payload fields
unvalidated. -/
def verifyJwt (secret : Option String) (jwtVerify : String → Option JwtPayload)
    (token : String) : Option JwtPayload :=
  match secret with
  | none => none
  | some _ => jwtVerify token

/-- The fresh `StreamState` built on successful verification. -/
def initState (p : JwtPayload) : StreamState :=
  { sessionId := p.session_id
    userId := p.user_id
    source := p.src
    sampleRate := p.sr
    aaiWs := false
    ffmpeg := false
    configReceived := false
    diarizationEnabled := true
    closed := false
    interimSeq := 0
    finalSeq := 0
    pcmForwarder := none
    finals := [] }

/-- The machine immediately after a connection is accepted. -/
def initMachine (p : JwtPayload) : Machine :=
  { st := some (initState p), cfgCaptured := none, ffInstalled := false }

/-- The `wss.on('connection')` handler up to handler registration: token
extraction and JWT verification.  Returns the machine (if any) and the
effects of the setup itself. -/
def onConnection (secret : Option String) (jwtVerify : String → Option JwtPayload)
    (token : Option String) : Option Machine × List Effect :=
  match token with
  | none => (none, [.wsClose 4401 "Unauthorized"])
  | some t =>
    match verifyJwt secret jwtVerify t with
    | none => (none, [.wsClose 4401 "Unauthorized"])
    | some p => (some (initMachine p), [])

/-- Effect classifiers used to count occurrences along a trace. -/
def isConnectE : Effect → Bool
  | .aaiConnect _ _ => true
  | _ => false

/-- Is this effect the transcoder kill? -/
def isKillE : Effect → Bool
  | .ffmpegKill => true
  | _ => false

/-- Is this effect a Supabase `endSession` call? -/
def isEndSessionE : Effect → Bool
  | .sbEndSession _ => true
  | _ => false

/-- Is this effect a Supabase `startSession` call? -/
def isStartSessionE : Effect → Bool
  | .sbStartSession _ _ _ _ => true
  | _ => false

/-- Is this effect a ZeroEntropy `documents.add` archival call? -/
def isZeDocAddE : Effect → Bool
  | .zeDocumentsAdd _ _ _ => true
  | _ => false

/-- The `closed` flag of the machine's session, if it still exists. -/
def machineClosed (m : Machine) : Bool :=
  match m.st with
  | some s => s.closed
  | none => false

/-- The finalized segments of the machine's session, if it still exists. -/
def machineFinals (m : Machine) : List Segment :=
  match m.st with
  | some s => s.finals
  | none => []

/-! ### Concrete fixtures used by witnesses and counterexamples -/

/-- A fully-populated verified JWT payload. -/
def wPayload : JwtPayload := ⟨some "user1", some "sess1", some .phone, some 16000⟩

/-- A valid pcm16 config message, as parsed JSON. -/
def wCfgJson : Json :=
  Json.obj [("type", .str "config"), ("source", .str "phone"),
            ("encoding", .str "pcm16"), ("sample_rate", .num 16000)]

/-- The parse of `wCfgJson`. -/
def wCfg : Config := ⟨.phone, .pcm16, none, 16000, 1, none, none, none, none⟩

/-- A valid opus/webm config message, as parsed JSON. -/
def wCfgOpusJson : Json :=
  Json.obj [("type", .str "config"), ("source", .str "phone"),
            ("encoding", .str "opus"), ("container", .str "webm"),
            ("sample_rate", .num 48000)]

/-- A process environment with Supabase and ZeroEntropy configured. -/
def wEnv : Env := ⟨true, true, 0⟩

/-- The session state right after `wCfgJson` is accepted and the vendor
socket opened (pcm16 forwarder installed). -/
def wStream : StreamState :=
  { sessionId := some "sess1", userId := some "user1", source := some .phone,
    sampleRate := some 16000, aaiWs := true, ffmpeg := false,
    configReceived := true, diarizationEnabled := true, closed := false,
    interimSeq := 0, finalSeq := 0, pcmForwarder := some .pcm16, finals := [] }

/-- The machine holding `wStream`. -/
def wMachine : Machine := ⟨some wStream, some wCfg, false⟩

/-- The vendor final event of the spec's scenario. -/
def wFinalEv : AaiEvent :=
  ⟨some "FinalTranscript", some "hello world", some 0, some 500, none, false, false⟩

lemma parse_wCfgJson : parseConfig wCfgJson = some wCfg := by decide

/-! ### Basic evaluation lemmas -/

lemma jsTextOrEmpty_some (t : String) : jsTextOrEmpty (some t) = t := by
  unfold jsTextOrEmpty
  split <;> simp_all

/-! ### Properties of the PCM re-slicing -/

lemma chunks640_nil : chunks640 [] = [] := by
  unfold chunks640
  simp

lemma chunks640_cons (l : List Nat) (h : l ≠ []) :
    chunks640 l = l.take 640 :: chunks640 (l.drop 640) := by
  conv_lhs => unfold chunks640
  simp [h]

lemma chunks640_eq_nil_iff (l : List Nat) : chunks640 l = [] ↔ l = [] := by
  constructor
  · intro h
    by_contra hne
    rw [chunks640_cons l hne] at h
    simp at h
  · intro h
    simp [h, chunks640_nil]

lemma chunks640_flatten (l : List Nat) : (chunks640 l).flatten = l := by
  induction l using chunks640.induct with
  | case1 =>
    simp [chunks640_nil]
  | case2 l h ih =>
    rw [chunks640_cons l h]
    simp only [List.flatten_cons, ih]
    exact List.take_append_drop 640 l

lemma chunks640_mem (l : List Nat) (c : List Nat) (hc : c ∈ chunks640 l) :
    0 < c.length ∧ c.length ≤ 640 := by
  induction l using chunks640.induct generalizing c with
  | case1 =>
    rw [chunks640_nil] at hc
    simp at hc
  | case2 l h ih =>
    rw [chunks640_cons l h] at hc
    rcases List.mem_cons.mp hc with hc | hc
    · subst hc
      have hlen : (l.take 640).length = min 640 l.length := List.length_take 640 l
      have hpos : 0 < l.length := List.length_pos.mpr h
      constructor
      · rw [hlen]; omega
      · rw [hlen]; omega
    · exact ih c hc

lemma chunks640_full (l : List Nat) (i : Nat) (h : i + 1 < (chunks640 l).length) :
    ((chunks640 l)[i]?.getD []).length = 640 := by
  induction l using chunks640.induct generalizing i with
  | case1 =>
    rw [chunks640_nil] at h
    simp at h
  | case2 l hl ih =>
    rw [chunks640_cons l hl] at h ⊢
    match i with
    | 0 =>
      simp only [List.getElem?_cons_zero, Option.getD_some]
      have hrest : chunks640 (l.drop 640) ≠ [] := by
        intro hz
        rw [hz] at h
        simp at h
      have hdrop : l.drop 640 ≠ [] := by
        intro hz
        exact hrest ((chunks640_eq_nil_iff _).mpr hz)
      have hlen : ¬ l.length ≤ 640 := by
        intro hle
        exact hdrop (List.drop_eq_nil_iff.mpr hle)
      have : (l.take 640).length = min 640 l.length := List.length_take 640 l
      omega
    | i + 1 =>
      simp only [List.length_cons, Nat.succ_lt_succ_iff] at h
      simp only [List.getElem?_cons_succ]
      exact ih i h

/-- Claim C6: on the opus path, every decoded PCM buffer emitted by the
transcoder is split into consecutive 640-byte frames forwarded to the
vendor client in order; all frames except possibly the last are exactly
640 bytes, the trailing partial frame is forwarded as-is (shorter than or
equal to 640 bytes, never empty, never buffered), and the concatenation of
the forwarded frames is exactly the decoded buffer. -/
theorem c6_opus_frame_slicing (env : Env) (m : Machine) (pcm : List Nat)
    (hff : m.ffInstalled = true) :
    step env m (.ffData pcm) = (m, (chunks640 pcm).map Effect.aaiSendAudio)
    ∧ (chunks640 pcm).flatten = pcm
    ∧ (∀ c ∈ chunks640 pcm, 0 < c.length ∧ c.length ≤ 640)
    ∧ (∀ i, i + 1 < (chunks640 pcm).length →
        ((chunks640 pcm)[i]?.getD []).length = 640) := by
  refine ⟨?_, chunks640_flatten pcm, chunks640_mem pcm, chunks640_full pcm⟩
  simp [step, stepFfData, hff]

/-- The machine after the opus config was accepted and the vendor socket
opened (ffmpeg spawned, handlers installed). -/
def wMachineOpus : Machine :=
  (run wEnv (initMachine wPayload) [.clientMsg (.text (some wCfgOpusJson)), .aaiOpen]).1

/-- Witness for C6 at a concrete 1300-byte decoded buffer on the reachable
opus-path machine. -/
theorem c6_witness :
    wMachineOpus.ffInstalled = true
    ∧ (step wEnv wMachineOpus (.ffData (List.replicate 1300 7)) =
        (wMachineOpus, (chunks640 (List.replicate 1300 7)).map Effect.aaiSendAudio)
       ∧ (chunks640 (List.replicate 1300 7)).flatten = List.replicate 1300 7
       ∧ (∀ c ∈ chunks640 (List.replicate 1300 7), 0 < c.length ∧ c.length ≤ 640)
       ∧ (∀ i, i + 1 < (chunks640 (List.replicate 1300 7)).length →
           ((chunks640 (List.replicate 1300 7))[i]?.getD []).length = 640)) :=
  ⟨by decide, c6_opus_frame_slicing wEnv wMachineOpus (List.replicate 1300 7) (by decide)⟩

/-! ### The stable sort used at archival time -/

/-- The `start_ms`-comparison used for sortedness statements. -/
def segLE (a b : Segment) : Prop := a.start_ms ≤ b.start_ms

lemma insertSeg_perm (x : Segment) (l : List Segment) :
    (insertSeg x l).Perm (x :: l) := by
  induction l with
  | nil => simp [insertSeg]
  | cons y ys ih =>
    unfold insertSeg
    split
    · exact List.Perm.refl _
    · exact List.Perm.trans (List.Perm.cons y ih) (List.Perm.swap x y ys)

lemma mem_insertSeg (x z : Segment) (l : List Segment) (hz : z ∈ insertSeg x l) :
    z = x ∨ z ∈ l := by
  have := (insertSeg_perm x l).mem_iff.mp hz
  simpa using this

lemma insertSeg_pairwise (x : Segment) (l : List Segment)
    (h : l.Pairwise segLE) : (insertSeg x l).Pairwise segLE := by
  induction l with
  | nil => simp [insertSeg, List.pairwise_cons]
  | cons y ys ih =>
    rcases List.pairwise_cons.mp h with ⟨hy, hys⟩
    unfold insertSeg
    split
    · rename_i hlt
      refine List.pairwise_cons.mpr ⟨?_, h⟩
      intro b hb
      rcases List.mem_cons.mp hb with hb | hb
      · subst hb
        exact le_of_lt hlt
      · exact le_trans (le_of_lt hlt) (hy b hb)
    · rename_i hnlt
      refine List.pairwise_cons.mpr ⟨?_, ih hys⟩
      intro b hb
      rcases mem_insertSeg x b ys hb with hb | hb
      · subst hb
        exact Int.not_lt.mp hnlt
      · exact hy b hb

lemma sortFinals_perm (l : List Segment) : (sortFinals l).Perm l := by
  induction l with
  | nil => simp [sortFinals]
  | cons x xs ih =>
    unfold sortFinals
    exact List.Perm.trans (insertSeg_perm _ _) (List.Perm.cons x ih)

lemma sortFinals_pairwise (l : List Segment) : (sortFinals l).Pairwise segLE := by
  induction l with
  | nil => simp [sortFinals]
  | cons x xs ih =>
    unfold sortFinals
    exact insertSeg_pairwise x (sortFinals xs) ih

/-! ### Normal form of the teardown effects -/

/-- The exact list of calls `closeWith` attempts, for any combination of
primitive failures: the source's try/catch placement makes the attempted
sequence independent of which wrapped primitives throw. -/
theorem closeWithEM_effs (env : Env) (fl : FailFlags) (code : Int) (reason : String)
    (st : Option StreamState) :
    (closeWithEM env fl code reason st).effs =
      Effect.wsClose code reason ::
      ((match st with
        | some s =>
          (if s.ffmpeg then [Effect.ffmpegKill] else [])
          ++ (if s.aaiWs then [Effect.aaiClose] else [])
          ++ (if 0 < s.finals.length then
                if env.zeApiKeyValid then
                  [Effect.zeCollectionsAdd zeCollection,
                   Effect.zeDocumentsAdd zeCollection (zePath env s)
                     (fullTranscript s.finals)]
                else []
              else [])
          ++ [Effect.sbEndSession s.sessionId]
        | none => []) : List Effect) := by
  cases st with
  | none =>
    cases hws : fl.wsCloseThrows <;>
      simp [closeWithEM, emSeq, emTry, emEmit, emPure, hws]
  | some s =>
    by_cases hf : s.ffmpeg <;> by_cases ha : s.aaiWs <;>
      by_cases hn : 0 < s.finals.length <;> by_cases hz : env.zeApiKeyValid <;>
      cases hws : fl.wsCloseThrows <;> cases hac : fl.aaiCloseThrows <;>
      cases hca : fl.collAddThrows <;> cases hda : fl.docAddThrows <;>
      simp [closeWithEM, emSeq, emTry, emEmit, emPure, hf, ha, hn, hz, hws, hac, hca, hda]

/-! ### Claim C7: teardown steps run even when earlier ones fail -/

/-- Claim C7: on every execution of the teardown path, all teardown steps —
terminating the transcoder process, closing the vendor client, archiving
the transcript, and signalling session end to the Persistence Sink —
are attempted even if earlier steps fail (any combination of the
throw-capable primitives may throw): the failure of one teardown step
never skips the remaining ones. -/
theorem c7_teardown_no_skip (env : Env) (fl : FailFlags) (code : Int) (reason : String)
    (s : StreamState) (hff : s.ffmpeg = true) (haai : s.aaiWs = true)
    (hfin : s.finals ≠ []) (hze : env.zeApiKeyValid = true) :
    Effect.wsClose code reason ∈ (closeWithEM env fl code reason (some s)).effs
    ∧ Effect.ffmpegKill ∈ (closeWithEM env fl code reason (some s)).effs
    ∧ Effect.aaiClose ∈ (closeWithEM env fl code reason (some s)).effs
    ∧ Effect.zeDocumentsAdd zeCollection (zePath env s) (fullTranscript s.finals)
        ∈ (closeWithEM env fl code reason (some s)).effs
    ∧ Effect.sbEndSession s.sessionId ∈ (closeWithEM env fl code reason (some s)).effs := by
  have hn : 0 < s.finals.length := List.length_pos.mpr hfin
  rw [closeWithEM_effs]
  simp [hff, haai, hze, hn]

/-- A streaming-state with a live transcoder, vendor socket, and one
finalized segment. -/
def wStreamTear : StreamState :=
  { wStream with ffmpeg := true, finals := [⟨"hello world", 0, 500, none⟩] }

/-- Witness for C7 with every throw-capable teardown primitive throwing. -/
theorem c7_witness :
    wStreamTear.ffmpeg = true ∧ wStreamTear.finals ≠ []
    ∧ (Effect.wsClose 1000 "normal"
         ∈ (closeWithEM wEnv ⟨true, true, true, true, true⟩ 1000 "normal" (some wStreamTear)).effs
       ∧ Effect.ffmpegKill
         ∈ (closeWithEM wEnv ⟨true, true, true, true, true⟩ 1000 "normal" (some wStreamTear)).effs
       ∧ Effect.aaiClose
         ∈ (closeWithEM wEnv ⟨true, true, true, true, true⟩ 1000 "normal" (some wStreamTear)).effs
       ∧ Effect.zeDocumentsAdd zeCollection (zePath wEnv wStreamTear)
           (fullTranscript wStreamTear.finals)
         ∈ (closeWithEM wEnv ⟨true, true, true, true, true⟩ 1000 "normal" (some wStreamTear)).effs
       ∧ Effect.sbEndSession wStreamTear.sessionId
         ∈ (closeWithEM wEnv ⟨true, true, true, true, true⟩ 1000 "normal" (some wStreamTear)).effs) :=
  ⟨by decide, by decide,
   c7_teardown_no_skip wEnv ⟨true, true, true, true, true⟩ 1000 "normal" wStreamTear
     (by decide) (by decide) (by decide) (by decide)⟩

/-! ### Claim C2: archival at session close -/

/-- The trace of a session that is ended by the client dropping the
connection (raw `close` event) after one vendor final. -/
def c2Events : List Event :=
  [.clientMsg (.text (some wCfgJson)), .aaiOpen, .aaiEvent wFinalEv, .wsClose]

/-- Counterexample to claim C2 as stated: a session that closes via the raw
socket-close handler with one finalized segment; the session is closed and
has a nonempty `finals`, yet no `endSession` and no archival call is ever
made — "session end is signalled to the Persistence Sink in either case"
fails for this closed session. -/
theorem c2_counterexample :
    machineClosed (run wEnv (initMachine wPayload) c2Events).1 = true
    ∧ machineFinals (run wEnv (initMachine wPayload) c2Events).1 ≠ []
    ∧ (run wEnv (initMachine wPayload) c2Events).2.countP isEndSessionE = 0
    ∧ (run wEnv (initMachine wPayload) c2Events).2.countP isZeDocAddE = 0 := by
  decide

/-- Claim C2 (amended): for every session torn down via the teardown path
(`closeWith`), with the archival store configured: if at least one segment
was finalized, the archived full transcript is the segment texts in
sorted-by-`start_ms` order (a sorted permutation of the finalized
segments, not vendor delivery order) concatenated with single-space
separators; if zero segments were finalized, no archive call is made; and
session end is signalled to the Persistence Sink in either case. -/
theorem c2_teardown_archives_sorted (env : Env) (m : Machine) (s : StreamState)
    (code : Int) (reason : String) (hs : m.st = some s) (hze : env.zeApiKeyValid = true) :
    (s.finals ≠ [] →
       Effect.zeDocumentsAdd zeCollection (zePath env s)
           (String.intercalate " " ((sortFinals s.finals).map Segment.text))
         ∈ (closeWith env code reason m).2
       ∧ (sortFinals s.finals).Pairwise segLE
       ∧ (sortFinals s.finals).Perm s.finals)
    ∧ (s.finals = [] → (closeWith env code reason m).2.countP isZeDocAddE = 0)
    ∧ Effect.sbEndSession s.sessionId ∈ (closeWith env code reason m).2 := by
  unfold closeWith
  rw [hs, closeWithEM_effs]
  refine ⟨?_, ?_, ?_⟩
  · intro hfin
    have hn : 0 < s.finals.length := List.length_pos.mpr hfin
    refine ⟨?_, sortFinals_pairwise s.finals, sortFinals_perm s.finals⟩
    simp [hze, hn, fullTranscript]
  · intro hnil
    by_cases hf : s.ffmpeg <;> by_cases ha : s.aaiWs <;>
      simp [hnil, hf, ha, isZeDocAddE]
  · simp

/-- A machine whose session holds two finalized segments in reverse
audio-time order. -/
def wStreamTwo : StreamState :=
  { wStream with finals := [⟨"world", 600, 900, none⟩, ⟨"hello", 0, 500, none⟩] }

/-- The machine holding `wStreamTwo`. -/
def wMachineTwo : Machine := ⟨some wStreamTwo, some wCfg, false⟩

/-- Witness for the amended C2 at a concrete out-of-order segment list. -/
theorem c2_witness :
    wMachineTwo.st = some wStreamTwo
    ∧ ((wStreamTwo.finals ≠ [] →
         Effect.zeDocumentsAdd zeCollection (zePath wEnv wStreamTwo)
             (String.intercalate " " ((sortFinals wStreamTwo.finals).map Segment.text))
           ∈ (closeWith wEnv 1000 "normal" wMachineTwo).2
         ∧ (sortFinals wStreamTwo.finals).Pairwise segLE
         ∧ (sortFinals wStreamTwo.finals).Perm wStreamTwo.finals)
       ∧ (wStreamTwo.finals = [] →
           (closeWith wEnv 1000 "normal" wMachineTwo).2.countP isZeDocAddE = 0)
       ∧ Effect.sbEndSession wStreamTwo.sessionId
           ∈ (closeWith wEnv 1000 "normal" wMachineTwo).2) :=
  ⟨rfl, c2_teardown_archives_sorted wEnv wMachineTwo wStreamTwo 1000 "normal" rfl rfl⟩

/-! ### Claim C8: idempotence of duplicate teardown -/

/-- The trace of an opus session whose socket close event fires twice. -/
def c8Events : List Event :=
  [.clientMsg (.text (some wCfgOpusJson)), .aaiOpen, .wsClose, .wsClose]

/-- Counterexample to claim C8 as stated: duplicate socket-close events —
one of the claim's own duplicate-teardown scenarios — kill the transcoder
process twice, because the close handler checks only `state !== null`,
never `state.closed`, and never clears `state`. -/
theorem c8_counterexample :
    (run wEnv (initMachine wPayload) c8Events).2.countP isKillE = 2
    ∧ ¬ (run wEnv (initMachine wPayload) c8Events).2.countP isKillE ≤ 1 := by
  decide

/-- Claim C8 (amended): running the teardown function `closeWith` twice in
sequence, or `closeWith` followed by the socket's close handler, does not
free the transcoder process twice and does not invoke the Persistence
Sink's `endSession` more than once (the second run sees `state = null` and
does nothing); duplicate raw socket-close events, however, do kill the
transcoder process twice. -/
theorem c8_closeWith_idempotent (env : Env) (m : Machine) (s : StreamState)
    (c1 c2 : Int) (r1 r2 : String) (hs : m.st = some s) :
    ((closeWith env c1 r1 m).2
       ++ (closeWith env c2 r2 (closeWith env c1 r1 m).1).2).countP isKillE ≤ 1
    ∧ ((closeWith env c1 r1 m).2
       ++ (closeWith env c2 r2 (closeWith env c1 r1 m).1).2).countP isEndSessionE = 1
    ∧ ((closeWith env c1 r1 m).2
       ++ (stepWsClose (closeWith env c1 r1 m).1).2).countP isKillE ≤ 1
    ∧ ((closeWith env c1 r1 m).2
       ++ (stepWsClose (closeWith env c1 r1 m).1).2).countP isEndSessionE = 1
    ∧ (stepWsClose (closeWith env c1 r1 m).1).2 = [] := by
  have h1 : (closeWith env c1 r1 m).1 = { m with st := none } := rfl
  rw [h1]
  unfold closeWith
  rw [hs, closeWithEM_effs, closeWithEM_effs]
  by_cases hf : s.ffmpeg <;> by_cases ha : s.aaiWs <;>
    by_cases hn : 0 < s.finals.length <;> by_cases hz : env.zeApiKeyValid <;>
    simp [stepWsClose, hf, ha, hn, hz, isKillE, isEndSessionE]

/-- A machine with a live transcoder handle, reached on the opus path. -/
def wMachineTear : Machine := ⟨some wStreamTear, some wCfg, true⟩

/-- Witness for the amended C8. -/
theorem c8_witness :
    wMachineTear.st = some wStreamTear
    ∧ (((closeWith wEnv 1000 "normal" wMachineTear).2
         ++ (closeWith wEnv 1000 "normal"
              (closeWith wEnv 1000 "normal" wMachineTear).1).2).countP isKillE ≤ 1
       ∧ ((closeWith wEnv 1000 "normal" wMachineTear).2
         ++ (closeWith wEnv 1000 "normal"
              (closeWith wEnv 1000 "normal" wMachineTear).1).2).countP isEndSessionE = 1
       ∧ ((closeWith wEnv 1000 "normal" wMachineTear).2
         ++ (stepWsClose (closeWith wEnv 1000 "normal" wMachineTear).1).2).countP isKillE ≤ 1
       ∧ ((closeWith wEnv 1000 "normal" wMachineTear).2
         ++ (stepWsClose (closeWith wEnv 1000 "normal" wMachineTear).1).2).countP isEndSessionE = 1
       ∧ (stepWsClose (closeWith wEnv 1000 "normal" wMachineTear).1).2 = []) :=
  ⟨rfl, c8_closeWith_idempotent wEnv wMachineTear wStreamTear 1000 1000 "normal" "normal" rfl⟩

/-! ### Claim C1: vendor final events are relayed and persisted -/

/-- Claim C1: for every vendor final transcript event with
`message_type = 'FinalTranscript'`, text `t`, `audio_start = a` and
`audio_end = b` delivered while the session is streaming (config accepted,
not closed) and the Persistence Sink configured, the relay appends the
segment `(t, a, b)` to the finalized segments, attempts to send the client
the message `final(t, a, b, …)`, and invokes `addFinalSegment` with the
session's id and the same `start_ms`, `end_ms` and `text`. -/
theorem c1_vendor_final_relayed (env : Env) (m : Machine) (s : StreamState)
    (ev : AaiEvent) (t : String) (a b : Int) (cfg : Config)
    (hs : m.st = some s) (hcfg : m.cfgCaptured = some cfg)
    (hstr : s.configReceived = true) (hop : s.closed = false)
    (hsb : env.supabaseConfigured = true)
    (hmt : ev.message_type = some "FinalTranscript")
    (htx : ev.text = some t) (ha : ev.audio_start = some a) (hb : ev.audio_end = some b) :
    step env m (.aaiEvent ev) =
      ({ m with st := some { s with finals :=
           s.finals ++ [⟨t, a, b, ev.words.map (fun l => l.map mapWord)⟩] } },
       [Effect.send (.finalMsg t a b (ev.words.map (fun l => l.map mapWord))
          ev.speaker_labels_truthy),
        Effect.sbAddFinalSegment s.sessionId a b t]) := by
  simp [step, stepAaiEvent, hcfg, hmt, hs, hsb, htx, ha, hb, jsTextOrEmpty_some]

/-- Witness for C1: the spec's scenario event on the streaming machine. -/
theorem c1_witness :
    wFinalEv.message_type = some "FinalTranscript"
    ∧ step wEnv wMachine (.aaiEvent wFinalEv) =
      ({ wMachine with st := some { wStream with finals :=
           wStream.finals ++ [⟨"hello world", 0, 500, wFinalEv.words.map (fun l => l.map mapWord)⟩] } },
       [Effect.send (.finalMsg "hello world" 0 500
          (wFinalEv.words.map (fun l => l.map mapWord)) wFinalEv.speaker_labels_truthy),
        Effect.sbAddFinalSegment wStream.sessionId 0 500 "hello world"]) :=
  ⟨rfl, c1_vendor_final_relayed wEnv wMachine wStream wFinalEv "hello world" 0 500 wCfg
    rfl rfl rfl rfl rfl rfl rfl rfl rfl⟩

/-! ### Claim C10: audio after config but before the vendor socket opens -/

/-- Claim C10: a binary audio frame arriving after the config was accepted
but before the vendor socket's open handler installed the PCM forwarder is
silently discarded: the state is unchanged (the frame is not buffered) and
no effect is attempted, so none of its bytes reach the vendor client or
the transcoder. -/
theorem c10_audio_before_open_discarded (env : Env) (m : Machine) (s : StreamState)
    (b : List Nat) (hs : m.st = some s) (hcl : s.closed = false)
    (hcfg : s.configReceived = true) (hfw : s.pcmForwarder = none) :
    step env m (.clientMsg (.binary b)) = (m, []) := by
  simp [step, stepClientMsg, hs, hcl, hcfg, hfw]

/-- The session state right after `wCfgJson` is accepted, before the vendor
socket's open event. -/
def wStreamPre : StreamState := { wStream with pcmForwarder := none }

/-- The machine holding `wStreamPre`. -/
def wMachinePre : Machine := ⟨some wStreamPre, some wCfg, false⟩

/-- Witness for C10 at a concrete early audio frame. -/
theorem c10_witness :
    wStreamPre.pcmForwarder = none
    ∧ step wEnv wMachinePre (.clientMsg (.binary [1, 2, 3])) = (wMachinePre, []) :=
  ⟨rfl, c10_audio_before_open_discarded wEnv wMachinePre wStreamPre [1, 2, 3] rfl rfl rfl rfl⟩

/-! ### Trace invariants: the vendor client is connected at most once -/

/-- Number of `connectAAI` calls in an effect trace. -/
def countConnect (effs : List Effect) : Nat := effs.countP isConnectE

/-- One if a config has been captured (the vendor client was instantiated). -/
def cfgTok (m : Machine) : Nat := if m.cfgCaptured.isSome then 1 else 0

/-- Reachability invariant: before the config is accepted no config is
captured, and the ffmpeg handlers exist only once a config is captured. -/
def INV (m : Machine) : Prop :=
  (∀ s, m.st = some s → s.configReceived = false → m.cfgCaptured = none)
  ∧ (m.cfgCaptured = none → m.ffInstalled = false)

lemma closeWithEM_connect (env : Env) (fl : FailFlags) (code : Int) (reason : String)
    (st : Option StreamState) :
    (closeWithEM env fl code reason st).effs.countP isConnectE = 0 := by
  rw [closeWithEM_effs]
  cases st with
  | none => simp [isConnectE]
  | some s =>
    by_cases hf : s.ffmpeg <;> by_cases ha : s.aaiWs <;>
      by_cases hn : 0 < s.finals.length <;> by_cases hz : env.zeApiKeyValid <;>
      simp [hf, ha, hn, hz, isConnectE]

lemma closeWith_fst (env : Env) (code : Int) (reason : String) (m : Machine) :
    (closeWith env code reason m).1 = { m with st := none } := rfl

lemma INV_cfg_some (m' : Machine) (c : Config) (hcfg : m'.cfgCaptured = some c)
    (hst : ∀ s', m'.st = some s' → s'.configReceived = true) : INV m' := by
  constructor
  · intro s hs hf
    rw [hst s hs] at hf
    cases hf
  · intro he
    rw [he] at hcfg
    cases hcfg

lemma INV_st_configReceived (m : Machine) (h : INV m) (s : StreamState) (c : Config)
    (hst : m.st = some s) (hcfg : m.cfgCaptured = some c) : s.configReceived = true := by
  by_contra hne
  have hz := h.1 s hst (by simpa using hne)
  rw [hz] at hcfg
  cases hcfg


/-! ### Handler equation lemmas -/

lemma stepClientMsg_stNone (env : Env) (m : Machine) (msg : ClientMsg)
    (hst : m.st = none) : stepClientMsg env m msg = (m, []) := by
  unfold stepClientMsg
  rw [hst]

lemma stepClientMsg_closed (env : Env) (m : Machine) (s : StreamState) (msg : ClientMsg)
    (hst : m.st = some s) (hc : s.closed = true) : stepClientMsg env m msg = (m, []) := by
  unfold stepClientMsg
  rw [hst]
  simp [hc]

lemma stepClientMsg_binPre (env : Env) (m : Machine) (s : StreamState) (b : List Nat)
    (hst : m.st = some s) (hc : s.closed = false) (hcr : s.configReceived = false) :
    stepClientMsg env m (.binary b) = closeWith env 4401 "Expected config" m := by
  unfold stepClientMsg
  rw [hst]
  simp [hc, hcr]

lemma stepClientMsg_accept (env : Env) (m : Machine) (s : StreamState) (oj : Option Json)
    (cfg : Config) (hst : m.st = some s) (hc : s.closed = false)
    (hcr : s.configReceived = false) (hp : oj.bind parseConfig = some cfg) :
    stepClientMsg env m (.text oj) =
      ({ m with st := some { s with configReceived := true,
                                    diarizationEnabled := cfg.diarize.getD true,
                                    aaiWs := true },
                cfgCaptured := some cfg },
       [Effect.aaiConnect 16000 (cfg.diarize.getD true)]) := by
  unfold stepClientMsg
  rw [hst]
  simp [hc, hcr, hp]

lemma stepClientMsg_badCfg (env : Env) (m : Machine) (s : StreamState) (oj : Option Json)
    (hst : m.st = some s) (hc : s.closed = false) (hcr : s.configReceived = false)
    (hp : oj.bind parseConfig = none) :
    stepClientMsg env m (.text oj) = closeWith env 4401 "Bad config" m := by
  unfold stepClientMsg
  rw [hst]
  simp [hc, hcr, hp]

lemma stepClientMsg_audio (env : Env) (m : Machine) (s : StreamState) (b : List Nat)
    (hst : m.st = some s) (hc : s.closed = false) (hcr : s.configReceived = true) :
    stepClientMsg env m (.binary b) =
      (m, match s.pcmForwarder with
          | some .pcm16 => [Effect.aaiSendAudio b]
          | some .opus => [Effect.ffmpegStdinWrite b]
          | none => []) := by
  unfold stepClientMsg
  rw [hst]
  simp only [hc, hcr]
  cases s.pcmForwarder with
  | none => simp
  | some f => cases f <;> simp

lemma stepClientMsg_stop (env : Env) (m : Machine) (s : StreamState) (oj : Option Json)
    (hst : m.st = some s) (hc : s.closed = false) (hcr : s.configReceived = true)
    (hstop : isStopMsg oj = true) :
    stepClientMsg env m (.text oj) =
      ((closeWith env 1000 "normal" m).1,
       (if s.aaiWs then [Effect.aaiSendTerminate] else [])
         ++ (closeWith env 1000 "normal" m).2) := by
  unfold stepClientMsg
  rw [hst]
  simp [hc, hcr, hstop]

lemma stepClientMsg_ignore (env : Env) (m : Machine) (s : StreamState) (oj : Option Json)
    (hst : m.st = some s) (hc : s.closed = false) (hcr : s.configReceived = true)
    (hstop : isStopMsg oj = false) :
    stepClientMsg env m (.text oj) = (m, []) := by
  unfold stepClientMsg
  rw [hst]
  simp [hc, hcr, hstop]

lemma stepWsClose_stNone (m : Machine) (hst : m.st = none) : stepWsClose m = (m, []) := by
  unfold stepWsClose
  rw [hst]

lemma stepWsClose_stSome (m : Machine) (s : StreamState) (hst : m.st = some s) :
    stepWsClose m =
      ({ m with st := some { s with closed := true } },
       (if s.aaiWs then [Effect.aaiSendTerminate, Effect.aaiClose] else [])
         ++ (if s.ffmpeg then [Effect.ffmpegStdinEnd, Effect.ffmpegKill] else [])) := by
  unfold stepWsClose
  rw [hst]

lemma stepAaiOpen_noCfg (env : Env) (m : Machine) (hcfg : m.cfgCaptured = none) :
    stepAaiOpen env m = (m, []) := by
  unfold stepAaiOpen
  rw [hcfg]

lemma stepAaiEvent_noCfg (env : Env) (m : Machine) (ev : AaiEvent)
    (hcfg : m.cfgCaptured = none) : stepAaiEvent env m ev = (m, []) := by
  unfold stepAaiEvent
  rw [hcfg]

lemma stepAaiError_noCfg (env : Env) (m : Machine) (hcfg : m.cfgCaptured = none) :
    stepAaiError env m = (m, []) := by
  unfold stepAaiError
  rw [hcfg]

lemma stepAaiError_cfg (env : Env) (m : Machine) (cfg : Config)
    (hcfg : m.cfgCaptured = some cfg) :
    stepAaiError env m = closeWith env 4501 "vendor error" m := by
  unfold stepAaiError
  rw [hcfg]

lemma stepAaiOpen_pcm16 (env : Env) (m : Machine) (cfg : Config) (s : StreamState)
    (hcfg : m.cfgCaptured = some cfg) (henc : cfg.encoding = .pcm16)
    (hst : m.st = some s) :
    stepAaiOpen env m =
      ({ m with st := some { s with pcmForwarder := some .pcm16 } },
       if env.supabaseConfigured then
         [Effect.sbStartSession s.userId s.source "assemblyai" 16000]
       else []) := by
  unfold stepAaiOpen
  rw [hcfg, hst]
  simp [henc]

lemma stepAaiOpen_pcm16_stNone (env : Env) (m : Machine) (cfg : Config)
    (hcfg : m.cfgCaptured = some cfg) (henc : cfg.encoding = .pcm16)
    (hst : m.st = none) :
    stepAaiOpen env m = (m, []) := by
  unfold stepAaiOpen
  rw [hcfg, hst]
  simp [henc]

lemma stepAaiOpen_opus (env : Env) (m : Machine) (cfg : Config) (s : StreamState)
    (hcfg : m.cfgCaptured = some cfg) (henc : cfg.encoding = .opus)
    (hst : m.st = some s) :
    stepAaiOpen env m =
      ({ m with st := some { s with ffmpeg := true, pcmForwarder := some .opus },
                ffInstalled := true },
       (if env.supabaseConfigured then
          [Effect.sbStartSession s.userId s.source "assemblyai" 16000]
        else []) ++ [Effect.spawnFfmpeg (ffmpegArgs cfg)]) := by
  unfold stepAaiOpen
  rw [hcfg, hst]
  simp [henc]

lemma stepAaiOpen_opus_stNone (env : Env) (m : Machine) (cfg : Config)
    (hcfg : m.cfgCaptured = some cfg) (henc : cfg.encoding = .opus)
    (hst : m.st = none) :
    stepAaiOpen env m = (m, [Effect.spawnFfmpeg (ffmpegArgs cfg)]) := by
  unfold stepAaiOpen
  rw [hcfg, hst]
  simp [henc]

lemma stepAaiEvent_interim (env : Env) (m : Machine) (ev : AaiEvent) (cfg : Config)
    (hcfg : m.cfgCaptured = some cfg)
    (hmt : ev.message_type = some "PartialTranscript") :
    stepAaiEvent env m ev =
      (m, [.send (.interim (jsTextOrEmpty ev.text) (ev.audio_start.getD 0)
             (ev.audio_end.getD 0) ev.speaker_labels_truthy)]) := by
  unfold stepAaiEvent
  rw [hcfg]
  simp [hmt]

lemma stepAaiEvent_final (env : Env) (m : Machine) (ev : AaiEvent) (cfg : Config)
    (hcfg : m.cfgCaptured = some cfg)
    (hmt : ev.message_type = some "FinalTranscript") :
    stepAaiEvent env m ev =
      ({ m with st := m.st.map (fun s => { s with finals := s.finals ++
           [⟨jsTextOrEmpty ev.text, ev.audio_start.getD 0, ev.audio_end.getD 0,
             ev.words.map (fun l => l.map mapWord)⟩] }) },
       .send (.finalMsg (jsTextOrEmpty ev.text) (ev.audio_start.getD 0) (ev.audio_end.getD 0)
          (ev.words.map (fun l => l.map mapWord)) ev.speaker_labels_truthy)
         :: (if env.supabaseConfigured then
               match m.st with
               | some s => [Effect.sbAddFinalSegment s.sessionId (ev.audio_start.getD 0)
                              (ev.audio_end.getD 0) (jsTextOrEmpty ev.text)]
               | none => []
             else [])) := by
  unfold stepAaiEvent
  rw [hcfg]
  simp [hmt]

lemma stepAaiEvent_error (env : Env) (m : Machine) (ev : AaiEvent) (cfg : Config)
    (hcfg : m.cfgCaptured = some cfg)
    (hmt1 : ev.message_type ≠ some "PartialTranscript")
    (hmt2 : ev.message_type ≠ some "FinalTranscript")
    (herr : ev.error_truthy = true) :
    stepAaiEvent env m ev = closeWith env 4501 "vendor error" m := by
  unfold stepAaiEvent
  rw [hcfg]
  simp [hmt1, hmt2, herr]

lemma stepAaiEvent_other (env : Env) (m : Machine) (ev : AaiEvent) (cfg : Config)
    (hcfg : m.cfgCaptured = some cfg)
    (hmt1 : ev.message_type ≠ some "PartialTranscript")
    (hmt2 : ev.message_type ≠ some "FinalTranscript")
    (herr : ev.error_truthy = false) :
    stepAaiEvent env m ev = (m, []) := by
  unfold stepAaiEvent
  rw [hcfg]
  simp [hmt1, hmt2, herr]

lemma closeWith_connect (env : Env) (code : Int) (reason : String) (m : Machine) :
    List.countP isConnectE (closeWith env code reason m).2 = 0 :=
  closeWithEM_connect env noFail code reason m.st

lemma INV_closeWith (env : Env) (code : Int) (reason : String) (m : Machine)
    (h : INV m) : INV (closeWith env code reason m).1 := by
  rw [closeWith_fst]
  exact ⟨fun s hs => (nomatch hs), h.2⟩

lemma INV_stUpdate (m : Machine) (s s' : StreamState) (h : INV m) (hst : m.st = some s)
    (hcr : s'.configReceived = s.configReceived) :
    INV { m with st := some s' } := by
  refine ⟨?_, h.2⟩
  intro s'' hs'' hf
  simp only [Option.some.injEq] at hs''
  subst hs''
  rw [hcr] at hf
  exact h.1 s hst hf

theorem step_cfg (env : Env) (m : Machine) (ev : Event) (h : INV m) :
    INV (step env m ev).1
    ∧ cfgTok (step env m ev).1 = cfgTok m + countConnect (step env m ev).2 := by
  cases ev with
  | clientMsg msg =>
    simp only [step]
    cases hst : m.st with
    | none =>
      rw [stepClientMsg_stNone env m msg hst]
      exact ⟨h, by simp [countConnect, cfgTok]⟩
    | some s =>
      by_cases hc : s.closed
      · rw [stepClientMsg_closed env m s msg hst hc]
        exact ⟨h, by simp [countConnect, cfgTok]⟩
      · replace hc : s.closed = false := by simpa using hc
        by_cases hcr : s.configReceived
        · cases msg with
          | binary b =>
            rw [stepClientMsg_audio env m s b hst hc hcr]
            refine ⟨h, ?_⟩
            cases s.pcmForwarder with
            | none => simp [countConnect, cfgTok]
            | some f => cases f <;> simp [countConnect, cfgTok, isConnectE]
          | text oj =>
            by_cases hstop : isStopMsg oj
            · rw [stepClientMsg_stop env m s oj hst hc hcr hstop]
              refine ⟨INV_closeWith env 1000 "normal" m h, ?_⟩
              by_cases haai : s.aaiWs <;>
                simp [countConnect, cfgTok, closeWith_fst, haai, isConnectE,
                      List.countP_append, closeWith_connect]
            · replace hstop : isStopMsg oj = false := by simpa using hstop
              rw [stepClientMsg_ignore env m s oj hst hc hcr hstop]
              exact ⟨h, by simp [countConnect, cfgTok]⟩
        · replace hcr : s.configReceived = false := by simpa using hcr
          cases msg with
          | binary b =>
            rw [stepClientMsg_binPre env m s b hst hc hcr]
            refine ⟨INV_closeWith env 4401 "Expected config" m h, ?_⟩
            simp [countConnect, cfgTok, closeWith_fst, closeWith_connect]
          | text oj =>
            cases hp : oj.bind parseConfig with
            | some cfg =>
              rw [stepClientMsg_accept env m s oj cfg hst hc hcr hp]
              have hnone : m.cfgCaptured = none := h.1 s hst hcr
              constructor
              · apply INV_cfg_some _ cfg rfl
                intro s' hs'
                simp only [Option.some.injEq] at hs'
                rw [← hs']
              · simp [countConnect, cfgTok, hnone, isConnectE]
            | none =>
              rw [stepClientMsg_badCfg env m s oj hst hc hcr hp]
              refine ⟨INV_closeWith env 4401 "Bad config" m h, ?_⟩
              simp [countConnect, cfgTok, closeWith_fst, closeWith_connect]
  | wsClose =>
    simp only [step]
    cases hst : m.st with
    | none =>
      rw [stepWsClose_stNone m hst]
      exact ⟨h, by simp [countConnect, cfgTok]⟩
    | some s =>
      rw [stepWsClose_stSome m s hst]
      refine ⟨INV_stUpdate m s _ h hst rfl, ?_⟩
      by_cases haai : s.aaiWs <;> by_cases hff : s.ffmpeg <;>
        simp [countConnect, cfgTok, haai, hff, isConnectE]
  | aaiOpen =>
    simp only [step]
    cases hcfg : m.cfgCaptured with
    | none =>
      rw [stepAaiOpen_noCfg env m hcfg]
      exact ⟨h, by simp [countConnect, cfgTok]⟩
    | some cfg =>
      cases henc : cfg.encoding with
      | pcm16 =>
        cases hst : m.st with
        | none =>
          rw [stepAaiOpen_pcm16_stNone env m cfg hcfg henc hst]
          exact ⟨h, by simp [countConnect, cfgTok]⟩
        | some s =>
          rw [stepAaiOpen_pcm16 env m cfg s hcfg henc hst]
          refine ⟨INV_stUpdate m s _ h hst rfl, ?_⟩
          by_cases hsb : env.supabaseConfigured <;>
            simp [countConnect, cfgTok, hsb, isConnectE]
      | opus =>
        cases hst : m.st with
        | none =>
          rw [stepAaiOpen_opus_stNone env m cfg hcfg henc hst]
          exact ⟨h, by simp [countConnect, cfgTok, isConnectE]⟩
        | some s =>
          rw [stepAaiOpen_opus env m cfg s hcfg henc hst]
          constructor
          · refine INV_cfg_some _ cfg ?_ ?_
            · exact hcfg
            · intro s' hs'
              simp only [Option.some.injEq] at hs'
              rw [← hs']
              exact INV_st_configReceived m h s cfg hst hcfg
          · by_cases hsb : env.supabaseConfigured <;>
              simp [countConnect, cfgTok, hcfg, hsb, isConnectE]
  | aaiEvent ev =>
    simp only [step]
    cases hcfg : m.cfgCaptured with
    | none =>
      rw [stepAaiEvent_noCfg env m ev hcfg]
      exact ⟨h, by simp [countConnect, cfgTok]⟩
    | some cfg =>
      by_cases hint : ev.message_type = some "PartialTranscript"
      · rw [stepAaiEvent_interim env m ev cfg hcfg hint]
        exact ⟨h, by simp [countConnect, cfgTok, isConnectE]⟩
      · by_cases hfin : ev.message_type = some "FinalTranscript"
        · rw [stepAaiEvent_final env m ev cfg hcfg hfin]
          constructor
          · cases hst : m.st with
            | none =>
              exact ⟨fun s' hs' => (nomatch hs'), h.2⟩
            | some s =>
              simp only [Option.map_some]
              exact INV_stUpdate m s _ h hst rfl
          · cases hst : m.st with
            | none =>
              by_cases hsb : env.supabaseConfigured <;>
                simp [countConnect, cfgTok, hst, hsb, isConnectE]
            | some s =>
              by_cases hsb : env.supabaseConfigured <;>
                simp [countConnect, cfgTok, hst, hsb, isConnectE]
        · by_cases herr : ev.error_truthy
          · rw [stepAaiEvent_error env m ev cfg hcfg hint hfin herr]
            refine ⟨INV_closeWith env 4501 "vendor error" m h, ?_⟩
            simp [countConnect, cfgTok, closeWith_fst, closeWith_connect]
          · replace herr : ev.error_truthy = false := by simpa using herr
            rw [stepAaiEvent_other env m ev cfg hcfg hint hfin herr]
            exact ⟨h, by simp [countConnect, cfgTok]⟩
  | aaiError =>
    simp only [step]
    cases hcfg : m.cfgCaptured with
    | none =>
      rw [stepAaiError_noCfg env m hcfg]
      exact ⟨h, by simp [countConnect, cfgTok]⟩
    | some cfg =>
      rw [stepAaiError_cfg env m cfg hcfg]
      refine ⟨INV_closeWith env 4501 "vendor error" m h, ?_⟩
      simp [countConnect, cfgTok, closeWith_fst, closeWith_connect]
  | ffData pcm =>
    simp only [step]
    unfold stepFfData
    by_cases hffi : m.ffInstalled
    · simp only [hffi, if_true]
      refine ⟨h, ?_⟩
      have hz : ((chunks640 pcm).map Effect.aaiSendAudio).countP isConnectE = 0 := by
        apply List.countP_eq_zero.mpr
        intro e he
        rcases List.mem_map.mp he with ⟨c, _, rfl⟩
        simp [isConnectE]
      simp [countConnect, cfgTok, hz]
    · simp only [hffi, if_false]
      exact ⟨h, by simp [countConnect, cfgTok]⟩
  | ffError =>
    simp only [step]
    unfold stepFfError
    by_cases hffi : m.ffInstalled
    · simp only [hffi, if_true]
      refine ⟨INV_closeWith env 4501 "decoder error" m h, ?_⟩
      simp [countConnect, cfgTok, closeWith_fst, closeWith_connect]
    · simp only [hffi, if_false]
      exact ⟨h, by simp [countConnect, cfgTok]⟩
  | ffClose code =>
    simp only [step]
    unfold stepFfClose
    by_cases hffi : m.ffInstalled
    · simp only [hffi, if_true]
      by_cases hcond : ffNotClosed m.st && code != some 0
      · simp only [hcond, if_true]
        refine ⟨INV_closeWith env 4501 "decoder exit" m h, ?_⟩
        simp [countConnect, cfgTok, closeWith_fst, closeWith_connect]
      · simp only [Bool.not_eq_true] at hcond
        simp only [hcond, if_false]
        exact ⟨h, by simp [countConnect, cfgTok]⟩
    · simp only [hffi, if_false]
      exact ⟨h, by simp [countConnect, cfgTok]⟩

lemma run_cons (env : Env) (m : Machine) (ev : Event) (evs : List Event) :
    run env m (ev :: evs) =
      ((run env (step env m ev).1 evs).1,
       (step env m ev).2 ++ (run env (step env m ev).1 evs).2) := rfl

lemma run_append (env : Env) (xs ys : List Event) (m : Machine) :
    run env m (xs ++ ys) =
      ((run env (run env m xs).1 ys).1,
       (run env m xs).2 ++ (run env (run env m xs).1 ys).2) := by
  induction xs generalizing m with
  | nil => simp [run]
  | cons x xs ih =>
    simp only [List.cons_append, run_cons, ih, List.append_assoc]

theorem run_cfg (env : Env) (evs : List Event) (m : Machine) (h : INV m) :
    INV (run env m evs).1
    ∧ cfgTok (run env m evs).1 = cfgTok m + countConnect (run env m evs).2 := by
  induction evs generalizing m with
  | nil => exact ⟨h, by simp [run, countConnect]⟩
  | cons ev evs ih =>
    obtain ⟨h1, h2⟩ := step_cfg env m ev h
    obtain ⟨g1, g2⟩ := ih (step env m ev).1 h1
    refine ⟨by rw [run_cons]; exact g1, ?_⟩
    rw [run_cons]
    show cfgTok (run env (step env m ev).1 evs).1 =
      cfgTok m + countConnect ((step env m ev).2 ++ (run env (step env m ev).1 evs).2)
    rw [g2, h2]
    simp only [countConnect, List.countP_append]
    omega

lemma INV_init (p : JwtPayload) : INV (initMachine p) :=
  ⟨fun _ _ _ => rfl, fun _ => rfl⟩

lemma cfgTok_le_one (m : Machine) : cfgTok m ≤ 1 := by
  unfold cfgTok
  split <;> omega

lemma step_dead (env : Env) (ev : Event) :
    step env (⟨none, none, false⟩ : Machine) ev = (⟨none, none, false⟩, []) := by
  cases ev with
  | clientMsg msg => exact stepClientMsg_stNone env (⟨none, none, false⟩ : Machine) msg rfl
  | wsClose => exact stepWsClose_stNone (⟨none, none, false⟩ : Machine) rfl
  | aaiOpen => exact stepAaiOpen_noCfg env (⟨none, none, false⟩ : Machine) rfl
  | aaiEvent ev => exact stepAaiEvent_noCfg env (⟨none, none, false⟩ : Machine) ev rfl
  | aaiError => exact stepAaiError_noCfg env (⟨none, none, false⟩ : Machine) rfl
  | ffData pcm => simp [step, stepFfData]
  | ffError => simp [step, stepFfError]
  | ffClose code => simp [step, stepFfClose]

lemma run_dead (env : Env) (evs : List Event) :
    run env (⟨none, none, false⟩ : Machine) evs = (⟨none, none, false⟩, []) := by
  induction evs with
  | nil => rfl
  | cons ev evs ih => simp [run_cons, step_dead, ih]

lemma closeWith_head (env : Env) (code : Int) (reason : String) (m : Machine) :
    Effect.wsClose code reason ∈ (closeWith env code reason m).2 := by
  unfold closeWith
  rw [closeWithEM_effs]
  exact List.mem_cons_self _ _

/-! ### Claim C3: binary audio before the config -/

/-- Claim C3: for every connection, if a binary audio frame arrives while
no SessionConfig has been accepted (and the session is not closed), the
connection is closed with status `4401` and reason "Expected config", and
no Vendor Streaming Client is ever instantiated during the whole
connection — neither before the frame, nor by it, nor afterwards. -/
theorem c3_binary_before_config (env : Env) (p : JwtPayload) (evs1 evs2 : List Event)
    (b : List Nat) (s1 : StreamState)
    (h1 : (run env (initMachine p) evs1).1.st = some s1)
    (h2 : s1.configReceived = false) (h3 : s1.closed = false) :
    Effect.wsClose 4401 "Expected config"
      ∈ (run env (initMachine p) (evs1 ++ Event.clientMsg (.binary b) :: evs2)).2
    ∧ countConnect
        (run env (initMachine p) (evs1 ++ Event.clientMsg (.binary b) :: evs2)).2 = 0 := by
  obtain ⟨hinv, heq⟩ := run_cfg env evs1 (initMachine p) (INV_init p)
  have hcfgnone : (run env (initMachine p) evs1).1.cfgCaptured = none := hinv.1 s1 h1 h2
  have hffnone : (run env (initMachine p) evs1).1.ffInstalled = false := hinv.2 hcfgnone
  have hcount1 : countConnect (run env (initMachine p) evs1).2 = 0 := by
    have h0 : cfgTok (initMachine p) = 0 := rfl
    have ht : cfgTok (run env (initMachine p) evs1).1 = 0 := by
      simp [cfgTok, hcfgnone]
    omega
  have hstep : step env (run env (initMachine p) evs1).1 (.clientMsg (.binary b))
      = closeWith env 4401 "Expected config" (run env (initMachine p) evs1).1 := by
    simp only [step]
    exact stepClientMsg_binPre env _ s1 b h1 h3 h2
  have hm2 : (closeWith env 4401 "Expected config" (run env (initMachine p) evs1).1).1
      = (⟨none, none, false⟩ : Machine) := by
    rw [closeWith_fst, hcfgnone, hffnone]
  rw [run_append, run_cons, hstep, hm2, run_dead]
  constructor
  · simp only [List.mem_append]
    exact Or.inr (Or.inl (closeWith_head env 4401 "Expected config" _))
  · simp only [countConnect, List.countP_append] at hcount1 ⊢
    have hcw := closeWith_connect env 4401 "Expected config" (run env (initMachine p) evs1).1
    simp [hcount1, hcw]

/-- Witness for C3: a fresh connection whose first message is binary. -/
theorem c3_witness :
    (run wEnv (initMachine wPayload) []).1.st = some (initState wPayload)
    ∧ (initState wPayload).configReceived = false
    ∧ (Effect.wsClose 4401 "Expected config"
        ∈ (run wEnv (initMachine wPayload) ([] ++ Event.clientMsg (.binary [9]) :: [])).2
       ∧ countConnect
          (run wEnv (initMachine wPayload) ([] ++ Event.clientMsg (.binary [9]) :: [])).2 = 0) :=
  ⟨rfl, rfl,
   c3_binary_before_config wEnv wPayload [] [] [9] (initState wPayload) rfl rfl rfl⟩

/-! ### Claim C5: at most one config is ever accepted -/

/-- Claim C5: at most one SessionConfig is ever accepted per session — the
vendor client is instantiated at most once along any event sequence from a
fresh connection — and once the session is streaming, any text message
other than a stop message (in particular a second config message) is
ignored: the state is unchanged and no effect is attempted. -/
theorem c5_single_config :
    (∀ (env : Env) (m : Machine) (s : StreamState) (oj : Option Json),
       m.st = some s → s.closed = false → s.configReceived = true →
       isStopMsg oj = false → step env m (.clientMsg (.text oj)) = (m, []))
    ∧ ∀ (env : Env) (p : JwtPayload) (evs : List Event),
        countConnect (run env (initMachine p) evs).2 ≤ 1 := by
  constructor
  · intro env m s oj hst hc hcr hstop
    simp only [step]
    exact stepClientMsg_ignore env m s oj hst hc hcr hstop
  · intro env p evs
    obtain ⟨hinv, heq⟩ := run_cfg env evs (initMachine p) (INV_init p)
    have h0 : cfgTok (initMachine p) = 0 := rfl
    have h1 := cfgTok_le_one (run env (initMachine p) evs).1
    omega

/-- Witness for C5: a second config message on the streaming machine is
ignored, and a trace that sends the config twice connects the vendor
client exactly once. -/
theorem c5_witness :
    isStopMsg (some wCfgJson) = false
    ∧ step wEnv wMachine (.clientMsg (.text (some wCfgJson))) = (wMachine, [])
    ∧ countConnect (run wEnv (initMachine wPayload)
        [.clientMsg (.text (some wCfgJson)), .clientMsg (.text (some wCfgJson))]).2 ≤ 1 :=
  ⟨by decide,
   c5_single_config.1 wEnv wMachine wStream (some wCfgJson) rfl rfl rfl (by decide),
   c5_single_config.2 wEnv wPayload
     [.clientMsg (.text (some wCfgJson)), .clientMsg (.text (some wCfgJson))]⟩

/-! ### Claim C4: the `start_ms ≤ end_ms` invariant -/

/-- A vendor final event whose `audio_start` exceeds its `audio_end`. -/
def c4Ev : AaiEvent := ⟨some "FinalTranscript", some "x", some 500, some 0, none, false, false⟩

/-- Counterexample to claim C4 as stated: the relay copies `audio_start`
and `audio_end` into the segment without any check, so a vendor final
event with `audio_start = 500`, `audio_end = 0` appends a segment with
`start_ms = 500 > 0 = end_ms`. -/
theorem c4_counterexample :
    machineFinals (run wEnv (initMachine wPayload)
        [.clientMsg (.text (some wCfgJson)), .aaiOpen, .aaiEvent c4Ev]).1
      = [⟨"x", 500, 0, none⟩]
    ∧ ¬ (∀ seg ∈ machineFinals (run wEnv (initMachine wPayload)
          [.clientMsg (.text (some wCfgJson)), .aaiOpen, .aaiEvent c4Ev]).1,
            seg.start_ms ≤ seg.end_ms) := by
  decide

/-- Claim C4 (amended): every vendor final event appends exactly one
segment, whose `start_ms` and `end_ms` are the event's `audio_start ?? 0`
and `audio_end ?? 0` verbatim; consequently every appended segment
satisfies `start_ms ≤ end_ms` exactly when the event's
`(audio_start ?? 0) ≤ (audio_end ?? 0)` — the relay itself does not
enforce the invariant. -/
theorem c4_segment_bounds (env : Env) (m : Machine) (s : StreamState) (ev : AaiEvent)
    (cfg : Config) (hs : m.st = some s) (hcfg : m.cfgCaptured = some cfg)
    (hmt : ev.message_type = some "FinalTranscript") :
    machineFinals (step env m (.aaiEvent ev)).1
      = s.finals ++ [⟨jsTextOrEmpty ev.text, ev.audio_start.getD 0, ev.audio_end.getD 0,
                      ev.words.map (fun l => l.map mapWord)⟩]
    ∧ (ev.audio_start.getD 0 ≤ ev.audio_end.getD 0 →
        ∀ seg ∈ machineFinals (step env m (.aaiEvent ev)).1,
          seg ∈ s.finals ∨ seg.start_ms ≤ seg.end_ms) := by
  have hfin : machineFinals (step env m (.aaiEvent ev)).1
      = s.finals ++ [⟨jsTextOrEmpty ev.text, ev.audio_start.getD 0, ev.audio_end.getD 0,
                      ev.words.map (fun l => l.map mapWord)⟩] := by
    simp only [step]
    rw [stepAaiEvent_final env m ev cfg hcfg hmt, hs]
    simp [machineFinals]
  refine ⟨hfin, ?_⟩
  intro hle seg hseg
  rw [hfin] at hseg
  rcases List.mem_append.mp hseg with hm | hm
  · exact Or.inl hm
  · right
    simp only [List.mem_singleton] at hm
    rw [hm]
    exact hle

/-- Witness for the amended C4 at the well-ordered scenario event. -/
theorem c4_witness :
    wFinalEv.audio_start.getD 0 ≤ wFinalEv.audio_end.getD 0
    ∧ (machineFinals (step wEnv wMachine (.aaiEvent wFinalEv)).1
        = wStream.finals ++ [⟨jsTextOrEmpty wFinalEv.text, wFinalEv.audio_start.getD 0,
            wFinalEv.audio_end.getD 0, wFinalEv.words.map (fun l => l.map mapWord)⟩]
       ∧ (wFinalEv.audio_start.getD 0 ≤ wFinalEv.audio_end.getD 0 →
           ∀ seg ∈ machineFinals (step wEnv wMachine (.aaiEvent wFinalEv)).1,
             seg ∈ wStream.finals ∨ seg.start_ms ≤ seg.end_ms)) :=
  ⟨by decide, c4_segment_bounds wEnv wMachine wStream wFinalEv wCfg rfl rfl rfl⟩

/-! ### Claim C9: unauthorized connections -/

/-- A validly-signed JWT whose payload carries none of the expected fields. -/
def malformedPayload : JwtPayload := ⟨none, none, none, none⟩

/-- Counterexample to claim C9 as stated: a structurally malformed but
validly-signed token is accepted — `verifyJwt` extracts the (undefined)
fields without any shape validation — so the connection is not closed and
session state is created. -/
theorem c9_counterexample :
    onConnection (some "secret") (fun _ => some malformedPayload) (some "tok")
      = (some (initMachine malformedPayload), [])
    ∧ (onConnection (some "secret") (fun _ => some malformedPayload) (some "tok")).1
        ≠ none := by
  exact ⟨rfl, by simp [onConnection, verifyJwt]⟩

/-- Claim C9 (amended): for every connection whose session token is
missing, or rejected by JWT verification (invalid or expired signature,
or missing server secret), the connection is closed immediately with code
`4401` and the single reason "Unauthorized" — the same code and reason in
all these cases — no session state is created, and no session-start
persistence call occurs (neither at setup nor from any later event, since
no machine exists).  A validly-signed token with a structurally malformed
payload, however, is accepted. -/
theorem c9_unauthorized (secret : Option String) (jv : String → Option JwtPayload)
    (token : Option String)
    (h : token = none ∨ ∃ t, token = some t ∧ verifyJwt secret jv t = none) :
    onConnection secret jv token = (none, [Effect.wsClose 4401 "Unauthorized"])
    ∧ (onConnection secret jv token).2.countP isStartSessionE = 0 := by
  have heq : onConnection secret jv token = (none, [Effect.wsClose 4401 "Unauthorized"]) := by
    rcases h with h | ⟨t, ht, hv⟩
    · rw [h]
      rfl
    · subst ht
      simp only [onConnection, hv]
  exact ⟨heq, by rw [heq]; simp [isStartSessionE]⟩

/-- Witness for the amended C9: an expired/invalid token. -/
theorem c9_witness :
    verifyJwt (some "secret") (fun _ => none) "expired" = none
    ∧ (onConnection (some "secret") (fun _ => none) (some "expired")
        = (none, [Effect.wsClose 4401 "Unauthorized"])
       ∧ (onConnection (some "secret") (fun _ => none) (some "expired")).2.countP
           isStartSessionE = 0) :=
  ⟨rfl, c9_unauthorized (some "secret") (fun _ => none) (some "expired")
    (Or.inr ⟨"expired", rfl, rfl⟩)⟩
